import Mathlib
/-!
Verification of the webxexpert-devtools debug-event capture pipeline.

The definitions below are shallow embeddings of the JavaScript sources:

* namespace `ContentScript` embeds `chrome-console-for-claude/content.js`
  (noise cleaning, stack cleaning, the deduplicating `addError`, and the
  `console.error` / `console.warn` wrappers);
* namespace `Background` embeds the extension background service worker
  (network exclusion filter, `Network.requestWillBeSent` handling, and the
  bridge reconnect state machine of `connectToBridge`);
* namespace `Bridge` embeds the aggregator process `claude-console-bridge`
  (WebSocket message handling, the HTTP query surface, `generateSummary`
  data selection, and `saveData` persistence).

JavaScript regular expressions are embedded pattern by pattern: each regex
of the source is compiled by hand into a deterministic `Matcher` computing
the extent of the match the JS engine would produce at a given position
(every pattern used by the source is backtracking-free at its choice
points, or its backtracking is resolved explicitly, as noted at each
definition), and `replaceAll` reproduces the left-to-right,
non-overlapping scan of `String.prototype.replace` with a global regex.
All functions are structurally recursive (fuel where needed) so that they
evaluate inside the kernel.
-/

namespace JsRegex

/-- `\w` of a JavaScript regex: ASCII letters, digits and underscore. -/
def wordChar (c : Char) : Bool := c.isAlphanum || c = '_'

/-- The character class `[\w-]`. -/
def wordDash (c : Char) : Bool := wordChar c || c = '-'

/-- `\s` (restricted to its ASCII members, the only ones the sources hit). -/
def wsChar (c : Char) : Bool :=
  c = ' ' || c = '\t' || c = '\n' || c = '\r' || c = '\x0b' || c = '\x0c'

/-- `\d`. -/
def digitChar (c : Char) : Bool := c.isDigit

/-- `[\da-f]` (the cache-buster pattern of `cleanStackTrace`, no `/i` flag). -/
def hexLowerChar (c : Char) : Bool := c.isDigit || ('a' ≤ c && c ≤ 'f')

/-- A matcher tries a pattern at the start of the input and, on success,
returns the remainder of the input after the characters the match consumed. -/
def Matcher : Type := List Char → Option (List Char)

/-- Literal fragment of a pattern. -/
def mlit (p : String) : Matcher := fun s =>
  if p.data.isPrefixOf s then some (s.drop p.data.length) else none

/-- Greedy character-class repetition `cls{low,}`.  All uses in the sources
are followed either by nothing or by a character outside `cls`, so the
greedy maximal run is the extent the JS engine commits to. -/
def mrun (cls : Char → Bool) (low : Nat) : Matcher := fun s =>
  if low ≤ (s.takeWhile cls).length then some (s.drop (s.takeWhile cls).length)
  else none

/-- Sequencing of two pattern fragments. -/
def mseq (a b : Matcher) : Matcher := fun s => (a s).bind b

/-- `Consumes m k`: whenever the matcher succeeds it consumed at least `k`
characters of its input. -/
def Consumes (m : Matcher) (k : Nat) : Prop :=
  ∀ s r, m s = some r → r.length + k ≤ s.length

/-- Global replacement scan with explicit fuel, so that it is structurally
recursive and kernel-evaluable.  At each position: if the pattern matches
(consuming at least one character), emit the replacement and resume after
the match, otherwise emit the character and advance by one.  All source
patterns require at least one character, so the guard is never the
deciding factor; it only provides the fuel bound.  `replaceAll` runs the
scan with fuel equal to the input length, which the guard makes
sufficient. -/
def replaceAllFuel (m : Matcher) (repl : List Char) : Nat → List Char → List Char
  | _, [] => []
  | 0, s => s
  | Nat.succ f, c :: rest =>
    match m (c :: rest) with
    | some r =>
      if r.length ≤ rest.length then repl ++ replaceAllFuel m repl f r
      else c :: replaceAllFuel m repl f rest
    | none => c :: replaceAllFuel m repl f rest

/-- Embedding of `String.prototype.replace` with a global regex. -/
def replaceAll (m : Matcher) (repl : List Char) (s : List Char) : List Char :=
  replaceAllFuel m repl s.length s

/-- `GoodFor repl m`: every match strictly exceeds the replacement in
length, so one replacement pass can only shrink the text. -/
def GoodFor (repl : List Char) (m : Matcher) : Prop :=
  ∀ s r, m s = some r → repl.length + r.length < s.length

/-- A function that either fixes or strictly shortens its input. -/
def ShrinkOrEq (f : List Char → List Char) : Prop :=
  ∀ s, f s = s ∨ (f s).length < s.length

end JsRegex

/-- `arr.push(x)` followed by `if (arr.length > cap) arr.shift()`, the
buffer-bounding idiom shared by all the buffers in the sources. -/
def pushCap {α : Type} (cap : Nat) (x : α) (l : List α) : List α :=
  if cap < (l ++ [x]).length then (l ++ [x]).tail else l ++ [x]

/-- `l.slice(-n)` of JavaScript: the last `n` elements. -/
def lastN {α : Type} (n : Nat) (l : List α) : List α := l.drop (l.length - n)

namespace ContentScript
open JsRegex

/-! Embedding of `chrome-console-for-claude/content.js`. -/

/-- `JUNK_PATTERNS` of content.js, in source order.  Each JS regex is
compiled into its deterministic matcher: in every pattern, each greedy
repetition is followed by a character that cannot belong to its class, so
the maximal run is the extent the engine commits to; pattern 5 is the one
pattern with real backtracking (`\S+` may swallow the following literal)
and is resolved by `junk5try` below, trying the longest split first. -/
def junk1 : Matcher :=
  mseq (mlit "(anonymous)@__")
    (mseq (mrun wordDash 1) (mseq (mlit ".js:") (mseq (mrun digitChar 1) (mlit "__"))))

/-- `/__xhr@__[\w-]+\.js:\d+__/g`. -/
def junk2 : Matcher :=
  mseq (mlit "__xhr@__")
    (mseq (mrun wordDash 1) (mseq (mlit ".js:") (mseq (mrun digitChar 1) (mlit "__"))))

/-- `/__\w+@__[\w-]+\.js:\d+__/g`. -/
def junk3 : Matcher :=
  mseq (mlit "__")
    (mseq (mrun wordChar 1)
      (mseq (mlit "@__")
        (mseq (mrun wordDash 1) (mseq (mlit ".js:") (mseq (mrun digitChar 1) (mlit "__"))))))

/-- `/webpack-internal:\/\/\/\([\w-]+\)\//g`. -/
def junk4 : Matcher :=
  mseq (mlit "webpack-internal:///(") (mseq (mrun wordDash 1) (mlit ")/"))

/-- Tail of pattern 5 after the `\S+`. -/
def junk5rest : Matcher :=
  mseq (mlit "/_next/static/chunks/") (mseq (mrun wordDash 1) (mlit ".js"))

/-- Backtracking of `\S+` in `/webpack:\/\/\S+\/_next\/static\/chunks\/[\w-]+\.js/g`:
the engine first lets `\S+` take the whole non-space run, then retreats one
character at a time; the first split (longest `\S+`) whose continuation
matches wins.  The split must leave at least one character to `\S+`. -/
def junk5try (s : List Char) : Nat → Option (List Char)
  | 0 => none
  | Nat.succ j =>
    match junk5rest (s.drop (Nat.succ j)) with
    | some r => some r
    | none => junk5try s j

def junk5part : Matcher := fun s =>
  junk5try s ((s.takeWhile (fun c => !wsChar c)).length)

def junk5 : Matcher := mseq (mlit "webpack://") junk5part

/-- `/_next\/static\/chunks\/[\w-]{20,}\.js/g`. -/
def junk6 : Matcher :=
  mseq (mlit "_next/static/chunks/") (mseq (mrun wordDash 20) (mlit ".js"))

/-- `/@[\w-]{20,}\.js:\d+/g`. -/
def junk7 : Matcher :=
  mseq (mlit "@") (mseq (mrun wordDash 20) (mseq (mlit ".js:") (mrun digitChar 1)))

/-- `/chrome-extension:\/\/[\w]+\//g`. -/
def junk8 : Matcher :=
  mseq (mlit "chrome-extension://") (mseq (mrun wordChar 1) (mlit "/"))

/-- `/[\w-]{32,}\.js/g`. -/
def junk9 : Matcher := mseq (mrun wordDash 32) (mlit ".js")

/-- `/Promise\.then_\w+@/g`. -/
def junk10 : Matcher := mseq (mlit "Promise.then_") (mseq (mrun wordChar 1) (mlit "@"))

/-- `/<computed>@/g`. -/
def junk11 : Matcher := mlit "<computed>@"

/-- `/__+/g`. -/
def junk12 : Matcher := mrun (fun c => c == '_') 2

/-- `/node_modules\/\.pnpm\/[^/]+\//g`. -/
def junk13 : Matcher :=
  mseq (mlit "node_modules/.pnpm/") (mseq (mrun (fun c => c != '/') 1) (mlit "/"))

/-- `/\[turbopack\]/g`. -/
def junk14 : Matcher := mlit "[turbopack]"

def JUNK_PATTERNS : List Matcher :=
  [junk1, junk2, junk3, junk4, junk5, junk6, junk7,
   junk8, junk9, junk10, junk11, junk12, junk13, junk14]

/-- The `JUNK_PATTERNS.forEach(pattern => cleaned = cleaned.replace(pattern, ''))`
loop of `cleanErrorMessage`. -/
def applyJunkPatterns (s : List Char) : List Char :=
  JUNK_PATTERNS.foldl (fun acc m => replaceAll m [] acc) s

/-- `/\s{2,}/g` replaced by a single space. -/
def wsRun2 : Matcher := mrun wsChar 2

/-- `/\n{3,}/g` replaced by two newlines. -/
def nlRun3 : Matcher := mrun (fun c => c == '\n') 3

/-- `/\(\s*\)/g`, the leftover-empty-parentheses rule. -/
def emptyParens : Matcher := mseq (mlit "(") (mseq (mrun wsChar 0) (mlit ")"))

/-- `/webpack-internal:\/\/\/\([^)]+\)\//g` (the variant used after the junk
patterns in `cleanErrorMessage`, and per line in `cleanStackTrace`). -/
def webpackInternalPath : Matcher :=
  mseq (mlit "webpack-internal:///(") (mseq (mrun (fun c => c != ')') 1) (mlit ")/"))

/-- `String.prototype.trim` (ASCII whitespace). -/
def dropTrailingWs (s : List Char) : List Char := (s.reverse.dropWhile wsChar).reverse

def trimList (s : List Char) : List Char := dropTrailingWs (s.dropWhile wsChar)

/-- `cleanErrorMessage` of content.js, on the character list: junk patterns
in order, whitespace collapsing, leftover parentheses, Next.js path
cleanups, final trim. -/
def cleanErrorMessageL (s : List Char) : List Char :=
  trimList
    (replaceAll (mlit ".next/static/chunks/") []
      (replaceAll (mlit ".next/server/") []
        (replaceAll webpackInternalPath []
          (replaceAll emptyParens []
            (replaceAll nlRun3 ['\n', '\n']
              (replaceAll wsRun2 [' ']
                (applyJunkPatterns s)))))))

/-- `cleanErrorMessage` on strings.  A JS falsy message (the empty string)
is returned unchanged by the `if (!message ...)` guard; non-string inputs
are outside the model's type. -/
def cleanErrorMessage (s : String) : String :=
  if s = "" then s else String.mk (cleanErrorMessageL s.data)

/-- `String.prototype.split` with a one-character separator. -/
def splitCh (sep : Char) : List Char → List (List Char)
  | [] => [[]]
  | c :: rest =>
    if c = sep then [] :: splitCh sep rest
    else
      match splitCh sep rest with
      | [] => [[c]]
      | h :: t => (c :: h) :: t

/-- `String.prototype.includes`. -/
def containsSub (p : List Char) : List Char → Bool
  | [] => p.isPrefixOf []
  | s@(_ :: rest) => p.isPrefixOf s || containsSub p rest

/-- `String.prototype.toLowerCase` (ASCII, all the pattern letters are). -/
def lowerL (s : List Char) : List Char := s.map Char.toLower

/-- `.` of a JS regex without the `s` flag: anything but a line terminator. -/
def dotChar (c : Char) : Bool :=
  c != '\n' && c != '\r' && c.val != 0x2028 && c.val != 0x2029

/-- Continuation of `server.*client` after a `server` occurrence: some run
of `.`-matchable characters followed by `client` (existence suffices for
`RegExp.prototype.test`). -/
def afterServer : List Char → Bool
  | [] => false
  | s@(c :: rest) => "client".data.isPrefixOf s || (dotChar c && afterServer rest)

/-- The `server.*client` alternative of the hydration pattern, on the
lowercased text. -/
def serverClientHit : List Char → Bool
  | [] => false
  | s@(_ :: rest) =>
    ("server".data.isPrefixOf s && afterServer (s.drop 6)) || serverClientHit rest

/-- `REACT_ERROR_PATTERNS.hydration`. -/
def hydrationHit (m : List Char) : Bool :=
  containsSub "hydrat".data (lowerL m) || containsSub "mismatch".data (lowerL m) ||
    serverClientHit (lowerL m) ||
    containsSub "text content does not match".data (lowerL m)

/-- `REACT_ERROR_PATTERNS.hooks`. -/
def hooksHit (m : List Char) : Bool :=
  ["hook", "usestate", "useeffect", "useref", "usememo", "usecallback",
   "usecontext", "usereducer"].any (fun p => containsSub p.data (lowerL m))

/-- `REACT_ERROR_PATTERNS.render`. -/
def renderHit (m : List Char) : Bool :=
  ["render", "component", "element", "jsx", "invalid prop", "failed prop"].any
    (fun p => containsSub p.data (lowerL m))

/-- `REACT_ERROR_PATTERNS.nextjs`. -/
def nextjsHit (m : List Char) : Bool :=
  ["getserversideprops", "getstaticprops", "_app", "_document", "next/",
   "middleware"].any (fun p => containsSub p.data (lowerL m))

/-- `identifyReactErrorType`: first matching topic in object insertion
order (hydration, hooks, render, nextjs); a missing or empty (falsy)
message yields null. -/
def identifyReactErrorType (message : Option String) : Option String :=
  match message with
  | none => none
  | some m =>
    if m = "" then none
    else if hydrationHit m.data then some "hydration"
    else if hooksHit m.data then some "hooks"
    else if renderHit m.data then some "render"
    else if nextjsHit m.data then some "nextjs"
    else none

/-- `[\w.<>]`. -/
def wordDotAngle (c : Char) : Bool := wordChar c || c = '.' || c = '<' || c = '>'

/-- `REMOVE_LINE_PATTERNS[0]`: `^\s*at\s+[\w.<>]+\s+\([\w-]{20,}\.js:\d+:\d+\)\s*$`
(tested; both anchors, so the whole line must match). -/
def removeLine1 (s : List Char) : Bool :=
  match (mseq (mrun wsChar 0) (mseq (mlit "at") (mseq (mrun wsChar 1)
    (mseq (mrun wordDotAngle 1) (mseq (mrun wsChar 1) (mseq (mlit "(")
      (mseq (mrun wordDash 20) (mseq (mlit ".js:") (mseq (mrun digitChar 1)
        (mseq (mlit ":") (mseq (mrun digitChar 1) (mseq (mlit ")")
          (mrun wsChar 0))))))))))))) s with
  | some [] => true
  | _ => false

/-- `REMOVE_LINE_PATTERNS[1]`: `^\s*@[\w-]{20,}\.js:\d+\s*$`. -/
def removeLine2 (s : List Char) : Bool :=
  match (mseq (mrun wsChar 0) (mseq (mlit "@") (mseq (mrun wordDash 20)
    (mseq (mlit ".js:") (mseq (mrun digitChar 1) (mrun wsChar 0)))))) s with
  | some [] => true
  | _ => false

/-- `REMOVE_LINE_PATTERNS[2]`: `^\s*at\s+webpack_require` (prefix only). -/
def removeLine3 (s : List Char) : Bool :=
  ((mseq (mrun wsChar 0) (mseq (mlit "at") (mseq (mrun wsChar 1)
    (mlit "webpack_require")))) s).isSome

/-- `REMOVE_LINE_PATTERNS[3]`: `^\s*at\s+__webpack_`. -/
def removeLine4 (s : List Char) : Bool :=
  ((mseq (mrun wsChar 0) (mseq (mlit "at") (mseq (mrun wsChar 1)
    (mlit "__webpack_")))) s).isSome

/-- `REMOVE_LINE_PATTERNS[4]`: `^\s*at\s+Object\.(\d+)\s*\[as`. -/
def removeLine5 (s : List Char) : Bool :=
  ((mseq (mrun wsChar 0) (mseq (mlit "at") (mseq (mrun wsChar 1)
    (mseq (mlit "Object.") (mseq (mrun digitChar 1) (mseq (mrun wsChar 0)
      (mlit "[as"))))))) s).isSome

/-- `REMOVE_LINE_PATTERNS[5]`: `^\s*at\s+Module\.\d+\s*\(`. -/
def removeLine6 (s : List Char) : Bool :=
  ((mseq (mrun wsChar 0) (mseq (mlit "at") (mseq (mrun wsChar 1)
    (mseq (mlit "Module.") (mseq (mrun digitChar 1) (mseq (mrun wsChar 0)
      (mlit "("))))))) s).isSome

/-- `REMOVE_LINE_PATTERNS.some(pattern => pattern.test(line))`. -/
def shouldRemoveLine (s : List Char) : Bool :=
  removeLine1 s || removeLine2 s || removeLine3 s ||
    removeLine4 s || removeLine5 s || removeLine6 s

/-- The cache-buster pattern `/\?[\da-f]+/g` of `cleanStackTrace`. -/
def cacheBuster : Matcher := mseq (mlit "?") (mrun hexLowerChar 1)

/-- Decomposition of the group content for `([^)]+):(\d+):(\d+)`.  The
engine backtracks `[^)]+` from its longest extent downwards; since neither
`\d+` can backtrack (each is followed by a character outside its class),
the only parse that can succeed is the one whose two digit groups are the
maximal digit runs at the very end of the content, each preceded by a
colon — computed here by reading the content from the right. -/
def parseFileLineCol (content : List Char) :
    Option (List Char × List Char × List Char) :=
  let r := content.reverse
  let d2r := r.takeWhile digitChar
  if d2r.isEmpty then none
  else
    match r.drop d2r.length with
    | ':' :: r2 =>
      let d1r := r2.takeWhile digitChar
      if d1r.isEmpty then none
      else
        match r2.drop d1r.length with
        | ':' :: fr =>
          if fr.isEmpty then none
          else some (fr.reverse, d1r.reverse, d2r.reverse)
        | _ => none
    | _ => none

/-- `at\s+(\S+)\s+\(([^)]+):(\d+):(\d+)\)` tried at the head of the input,
returning the captures (function, file, line, column).  `(\S+)` is greedy
and cannot backtrack usefully (its continuation starts with whitespace),
`[^)]+` is resolved by `parseFileLineCol`. -/
def fileMatchHead (s : List Char) :
    Option (List Char × List Char × List Char × List Char) :=
  match mlit "at" s with
  | none => none
  | some s1 =>
    match mrun wsChar 1 s1 with
    | none => none
    | some s2 =>
      let func := s2.takeWhile (fun c => !wsChar c)
      if func.isEmpty then none
      else
        match mrun wsChar 1 (s2.drop func.length) with
        | none => none
        | some s4 =>
          match s4 with
          | '(' :: s5 =>
            let content := s5.takeWhile (fun c => c != ')')
            match s5.drop content.length with
            | ')' :: _ =>
              match parseFileLineCol content with
              | some (f, ln, col) => some (func, f, ln, col)
              | none => none
            | _ => none
          | _ => none

/-- Leftmost search of `String.prototype.match` (no `g` flag): try the
pattern at each position from the left. -/
def fileMatchSearch : List Char → Option (List Char × List Char × List Char × List Char)
  | [] => none
  | s@(_ :: rest) =>
    match fileMatchHead s with
    | some x => some x
    | none => fileMatchSearch rest

/-- The per-line cleanup of `cleanStackTrace`: junk patterns in order, the
webpack-internal path pattern, then cache busters. -/
def cleanLine (line : List Char) : List Char :=
  replaceAll cacheBuster [] (replaceAll webpackInternalPath [] (applyJunkPatterns line))

/-- `  at ${func} (${shortFile}:${line}:${col})`. -/
def fmtFrame (func shortFile ln col : List Char) : List Char :=
  "  at ".data ++ func ++ " (".data ++ shortFile ++ [':'] ++ ln ++ [':'] ++ col ++ [')']

/-- The `for (let line of lines)` loop of `cleanStackTrace`, carrying
`lastFile` and producing `cleanedLines` in order. -/
def cleanStackLoop : List (List Char) → List Char → List (List Char)
  | [], _ => []
  | line :: rest, lastFile =>
    if shouldRemoveLine line then cleanStackLoop rest lastFile
    else
      match fileMatchSearch (cleanLine line) with
      | some (func, file, ln, col) =>
        let shortFile := List.intercalate ['/'] (lastN 2 (splitCh '/' file))
        if shortFile = lastFile then cleanStackLoop rest lastFile
        else fmtFrame func shortFile ln col :: cleanStackLoop rest shortFile
      | none =>
        let cl := cleanLine line
        if trimList cl ≠ [] ∧ ¬ containsSub "webpack".data cl = true then
          cl :: cleanStackLoop rest lastFile
        else cleanStackLoop rest lastFile

/-- `cleanStackTrace` of content.js: split into lines, filter and clean,
keep the first 10 cleaned lines.  A missing or empty stack is falsy and
yields the empty string. -/
def cleanStackTrace (stack : Option String) : String :=
  match stack with
  | none => ""
  | some st =>
    if st = "" then ""
    else String.mk (List.intercalate ['\n'] ((cleanStackLoop (splitCh '\n' st.data) []).take 10))

/-- The argument record assembled by the interception surfaces and passed
to `addError`. -/
structure ErrorData where
  type : Option String
  message : Option String
  stack : Option String
  componentStack : Option String
  source : Option String
  lineno : Option Nat
  colno : Option Nat
  deriving DecidableEq

/-- `/[\w-]{32,}(?=\.js)/g`: the lookahead requires, but does not
consume, a following `.js`. -/
def hashRun : Matcher := fun s =>
  match mrun wordDash 32 s with
  | some r => if ".js".data.isPrefixOf r then some r else none
  | none => none

/-- `formatError` of content.js. -/
def formatError (e : ErrorData) : String :=
  let reactType := identifyReactErrorType e.message
  let typeLabel0 : String :=
    match e.type with
    | some t => if t = "" then "ERROR" else String.mk (t.data.map Char.toUpper)
    | none => "ERROR"
  let typeLabel :=
    match reactType with
    | some r => typeLabel0 ++ " (React " ++ r ++ ")"
    | none => typeLabel0
  let parts0 : List String := ["[" ++ typeLabel ++ "]"]
  let parts1 :=
    match e.message with
    | some m => if m = "" then parts0 else parts0 ++ [cleanErrorMessage m]
    | none => parts0
  let parts2 :=
    match e.source with
    | some src =>
      if src = "" then parts1
      else
        let s1 := replaceAll hashRun "[hash]".data src.data
        let s2 := replaceAll (mlit "_next/static/chunks/") [] s1
        let filename := (splitCh '?' ((splitCh '/' s2).getLastD [])).headD []
        if filename ≠ [] ∧ filename ≠ "[hash].js".data then
          parts1 ++ ["\n  File: " ++ String.mk filename]
        else parts1
    | none => parts1
  let parts3 :=
    match e.lineno with
    | some n =>
      if 0 < n then
        parts2 ++ ["Line: " ++ toString n ++
          (match e.colno with
            | some c => if c ≠ 0 then ", Col: " ++ toString c else ""
            | none => "")]
      else parts2
    | none => parts2
  let parts4 :=
    match e.componentStack with
    | some cs => if cs = "" then parts3 else parts3 ++ ["\n  Component Stack:\n" ++ cs]
    | none => parts3
  let parts5 :=
    match e.stack with
    | some st =>
      if st = "" then parts4
      else
        let cst := cleanStackTrace (some st)
        if cst = "" then parts4 else parts4 ++ ["\n  Stack:\n" ++ cst]
    | none => parts4
  String.intercalate " " parts5

/-- A buffered entry of the content-script `errors` array. -/
structure ErrRecord where
  raw : ErrorData
  cleaned : String
  timestamp : Nat
  url : String
  reactType : Option String
  deriving DecidableEq

/-- `(errorData.message || '').substring(0, 100)`, the dedup key. -/
def msgKey (m : Option String) : String := String.mk ((m.getD "").data.take 100)

/-- The duplicate test of `addError`: some already-buffered record shares
the 100-character raw-message key and was captured within the preceding
second.  Timestamps are milliseconds (`Date.now()` and the
`toISOString`/`getTime` round-trip). -/
def isDupe (errors : List ErrRecord) (d : ErrorData) (now : Nat) : Bool :=
  errors.any (fun e =>
    msgKey e.raw.message == msgKey d.message &&
      decide ((now : Int) - (e.timestamp : Int) < 1000))

/-- The record `addError` builds and pushes. -/
def mkRecord (d : ErrorData) (now : Nat) (pageUrl : String) : ErrRecord :=
  { raw := d, cleaned := formatError d, timestamp := now, url := pageUrl,
    reactType := identifyReactErrorType d.message }

/-- `addError` of content.js: the dedup gate, then format, push, and cap at
`MAX_ERRORS = 100`.  The `chrome.runtime.sendMessage` forwarding is inside
its own try/catch and does not affect the buffer. -/
def addError (d : ErrorData) (now : Nat) (pageUrl : String)
    (errors : List ErrRecord) : List ErrRecord :=
  if isDupe errors d now then errors
  else pushCap 100 (mkRecord d now pageUrl) errors

deriving instance DecidableEq for Except

/-- A JavaScript argument to the wrapped console functions, as far as
`stringifyArg` observes it: an `Error` instance, a string, another object
(whose `JSON.stringify` outcome and `String()` conversion are host
behaviours the model takes as oracles — a throwing `String()` conversion
is recorded as `Except.error`), or another primitive with its standard
conversion. -/
inductive JsArg where
  | errObj (name msg : String) (stack : Option String)
  | strVal (s : String)
  | objVal (json : Option String) (toStr : Except Unit String)
  | primVal (s : String)
  deriving DecidableEq

/-- `stringifyArg`: `Error` instances render as `name: message`; other
objects go through `JSON.stringify` (truncated to 2000 characters) with
`String(arg)` as the catch fallback, which may itself throw; strings and
other primitives convert directly. -/
def stringifyArg : JsArg → Except Unit String
  | .errObj n m _ => .ok (n ++ ": " ++ m)
  | .strVal s => .ok s
  | .objVal json toStr =>
    match json with
    | some j => .ok (String.mk (j.data.take 2000))
    | none => toStr
  | .primVal s => .ok s

/-- `args.find(a => a instanceof Error)`. -/
def isErrObj : JsArg → Bool
  | .errObj .. => true
  | _ => false

def argStack : JsArg → Option String
  | .errObj _ _ st => st
  | _ => none

/-- `args.find(a => typeof a === 'string' && a.includes('at '))`. -/
def findComponentStack (args : List JsArg) : Option String :=
  (args.find? (fun a =>
    match a with
    | .strVal s => containsSub "at ".data s.data
    | _ => false)).bind
    (fun a =>
      match a with
      | .strVal s => some s
      | _ => none)

/-- The observable outcome of one wrapped console call: the buffer after
the capture path, and the arguments handed to the saved original
function. -/
structure WrapperOutcome where
  buffer : List ErrRecord
  originalArgs : List JsArg
  deriving DecidableEq

/-- The `console.error` wrapper installed by content.js: stringify every
argument (the one step that can throw, and nothing catches it), build the
record through `addError`, then invoke the saved original `console.error`
with the original arguments.  Reaching the final `pure` models the
original call; an exception short-circuits before it. -/
def consoleErrorWrapper (args : List JsArg) (curStack : String) (now : Nat)
    (pageUrl : String) (errors : List ErrRecord) : Except Unit WrapperOutcome := do
  let strs ← args.mapM stringifyArg
  let message := String.intercalate " " strs
  let errorObj := args.find? isErrObj
  let stackVal : String :=
    match errorObj.bind argStack with
    | some s => if s = "" then curStack else s
    | none => curStack
  let d : ErrorData :=
    { type := some "error", message := some message, stack := some stackVal,
      componentStack := findComponentStack args, source := none,
      lineno := none, colno := none }
  pure { buffer := addError d now pageUrl errors, originalArgs := args }

/-- The `console.warn` wrapper: stringify, capture only React-flavoured or
error/warning/failure-mentioning messages, then call the original. -/
def consoleWarnWrapper (args : List JsArg) (curStack : String) (now : Nat)
    (pageUrl : String) (errors : List ErrRecord) : Except Unit WrapperOutcome := do
  let strs ← args.mapM stringifyArg
  let message := String.intercalate " " strs
  let isReactWarning :=
    hydrationHit message.data || hooksHit message.data || renderHit message.data
  let capture :=
    isReactWarning || containsSub "error".data (lowerL message.data) ||
      containsSub "warning".data (lowerL message.data) ||
      containsSub "failed".data (lowerL message.data)
  let buf :=
    if capture then
      addError
        { type := some "warn", message := some message, stack := some curStack,
          componentStack := none, source := none, lineno := none, colno := none }
        now pageUrl errors
    else errors
  pure { buffer := buf, originalArgs := args }

end ContentScript

namespace Background
open JsRegex
open ContentScript (containsSub lowerL)

/-! Embedding of the extension background service worker. -/

/-- The `excludedResourceTypes` settings object. -/
structure ResourceTypeSettings where
  font : Bool
  image : Bool
  stylesheet : Bool
  script : Bool
  media : Bool
  other : Bool
  deriving DecidableEq

/-- Its default: fonts, images and media excluded; stylesheets, scripts
and "Other" retained. -/
def defaultExcludedResourceTypes : ResourceTypeSettings :=
  { font := true, image := true, stylesheet := false, script := false,
    media := true, other := false }

/-- `excludedResourceTypes[resourceType]`: an absent key reads as
`undefined`, which is falsy. -/
def lookupResourceType (s : ResourceTypeSettings) (ty : String) : Bool :=
  if ty = "Font" then s.font
  else if ty = "Image" then s.image
  else if ty = "Stylesheet" then s.stylesheet
  else if ty = "Script" then s.script
  else if ty = "Media" then s.media
  else if ty = "Other" then s.other
  else false

/-- The `excludedPatterns` settings object. -/
structure PatternSettings where
  base64 : Bool
  fonts : Bool
  images : Bool
  sourcemaps : Bool
  deriving DecidableEq

def defaultExcludedPatterns : PatternSettings :=
  { base64 := true, fonts := true, images := true, sourcemaps := true }

/-- `(\?|$)` after an extension alternative: end of string or a query
string. -/
def extBoundary : List Char → Bool
  | [] => true
  | '?' :: _ => true
  | _ => false

/-- One position of `/\.(alt1|alt2|...)(\?|$)/i`: a dot, one of the
alternatives, the boundary.  The `/i` flag is handled by testing on the
lowercased URL (all alternative letters are ASCII). -/
def extHitAt (alts : List (List Char)) (s : List Char) : Bool :=
  alts.any (fun a => ('.' :: a).isPrefixOf s && extBoundary (s.drop (a.length + 1)))

/-- `RegExp.prototype.test` of an extension pattern: some position hits. -/
def extHit (alts : List (List Char)) : List Char → Bool
  | [] => false
  | s@(_ :: rest) => extHitAt alts s || extHit alts rest

def fontExts : List (List Char) :=
  ["woff2".data, "woff".data, "ttf".data, "eot".data, "otf".data]

def imageExts : List (List Char) :=
  ["png".data, "jpg".data, "jpeg".data, "gif".data, "svg".data,
   "webp".data, "ico".data, "bmp".data, "avif".data]

def mapExts : List (List Char) := ["map".data]

/-- `shouldExcludeRequest` of the background worker: resource-type lookup
first, then (for a truthy URL) the enabled URL-pattern heuristics. -/
def shouldExcludeRequest (rts : ResourceTypeSettings) (pats : PatternSettings)
    (resourceType : String) (url : String) : Bool :=
  if lookupResourceType rts resourceType then true
  else if url = "" then false
  else if pats.base64 &&
      ("data:".data.isPrefixOf url.data || containsSub "base64".data url.data) then true
  else if pats.fonts && extHit fontExts (lowerL url.data) then true
  else if pats.images && extHit imageExts (lowerL url.data) then true
  else if pats.sourcemaps && extHit mapExts (lowerL url.data) then true
  else false

/-- Modelled from the spec: the URL-pattern heuristics the filtering
policy names (inline data payloads, font or image file extensions,
source-map files), stated as one predicate for comparison with
`shouldExcludeRequest` under the default settings. -/
def specUrlHeuristics (url : String) : Bool :=
  "data:".data.isPrefixOf url.data || containsSub "base64".data url.data ||
    extHit fontExts (lowerL url.data) || extHit imageExts (lowerL url.data) ||
    extHit mapExts (lowerL url.data)

/-- The request record assembled in the `Network.requestWillBeSent`
branch (headers, post data and initiator are opaque to the claims and
omitted; the fields below are the ones read downstream). -/
structure NetRequestRecord where
  id : String
  type : String
  timestamp : Nat
  url : String
  method : String
  resourceType : String
  deriving DecidableEq

/-- A message handed to `sendToBridge`. -/
structure BridgeSend where
  type : String
  tabId : Nat
  data : NetRequestRecord
  deriving DecidableEq

/-- Per-tab interceptor state touched by the `requestWillBeSent` branch:
the tab's `allNetworkRequests` list, the `pendingRequests` map (as an
association list; later entries shadow earlier ones), and the sequence of
`sendToBridge` calls made (the forwarding side channel). -/
structure TabNetState where
  requests : List NetRequestRecord
  pending : List (String × NetRequestRecord)
  sent : List BridgeSend
  deriving DecidableEq

/-- The `Network.requestWillBeSent` branch of the `chrome.debugger.onEvent`
listener: the exclusion filter runs first and, when it hits, nothing is
stored or forwarded; otherwise the record is stored as pending, appended
to the tab buffer (cap 100), and forwarded to the bridge immediately
(`updateBadge` only touches the toolbar badge). -/
def mkRequestRecord (requestId resourceType url method : String)
    (now : Nat) : NetRequestRecord :=
  { id := requestId, type := "request", timestamp := now, url := url,
    method := method, resourceType := resourceType }

def onRequestWillBeSent (rts : ResourceTypeSettings) (pats : PatternSettings)
    (tabId : Nat) (requestId resourceType url method : String)
    (now : Nat) (st : TabNetState) : TabNetState :=
  if shouldExcludeRequest rts pats resourceType url then st
  else
    let record := mkRequestRecord requestId resourceType url method now
    { requests := pushCap 100 record st.requests,
      pending := st.pending ++ [(requestId, record)],
      sent := st.sent ++ [{ type := "network_request", tabId := tabId, data := record }] }

/-- Status of the `WebSocket` object held in `wsConnection` (`noConn`
covers both a null variable and a closed socket). -/
inductive WsStatus where
  | noConn
  | connecting
  | connected
  deriving DecidableEq

/-- State of the bridge transport's sending side: the connection, the
`wsReconnectTimer` variable (as its non-null test), and the list of
delays of the `setTimeout` timers actually pending — the quantity the
variable is meant to track. -/
structure BridgeConnState where
  ws : WsStatus
  timerVar : Bool
  timers : List Nat
  deriving DecidableEq

/-- The events driving `connectToBridge` and its callbacks. -/
inductive BridgeEv where
  | connectCall
  | opened
  | dropped
  | timerFire
  deriving DecidableEq

/-- `connectToBridge`: a no-op while the socket is OPEN, otherwise a fresh
socket in CONNECTING state. -/
def connectStep (st : BridgeConnState) : BridgeConnState :=
  if st.ws = WsStatus.connected then st else { st with ws := WsStatus.connecting }

/-- One event step.  `onclose` nulls `wsConnection` and schedules a single
5000 ms reconnect timer unless `wsReconnectTimer` is already set; a firing
timer first clears the variable and removes itself, then calls
`connectToBridge`; `onopen` completes a pending connection attempt. -/
def bridgeStep (e : BridgeEv) (st : BridgeConnState) : BridgeConnState :=
  match e with
  | .connectCall => connectStep st
  | .opened =>
    if st.ws = WsStatus.connecting then { st with ws := WsStatus.connected } else st
  | .dropped =>
    if st.timerVar then { st with ws := WsStatus.noConn }
    else { ws := WsStatus.noConn, timerVar := true, timers := st.timers ++ [5000] }
  | .timerFire =>
    if st.timerVar then
      connectStep { ws := st.ws, timerVar := false, timers := st.timers.tail }
    else st

/-- Service-worker start: no connection, no timer. -/
def initialBridgeState : BridgeConnState :=
  { ws := WsStatus.noConn, timerVar := false, timers := [] }

/-- States reachable by any interleaving of connect calls, socket
callbacks and timer firings. -/
inductive BridgeReachable : BridgeConnState → Prop where
  | init : BridgeReachable initialBridgeState
  | step (e : BridgeEv) {st : BridgeConnState} (h : BridgeReachable st) :
      BridgeReachable (bridgeStep e st)

/-- The timer invariant: `wsReconnectTimer` set exactly when one 5000 ms
timer is pending, never more than one. -/
def TimerInv (st : BridgeConnState) : Prop :=
  (st.timerVar = true ∧ st.timers = [5000]) ∨ (st.timerVar = false ∧ st.timers = [])

end Background

namespace Bridge

/-! Embedding of the aggregator process (`claude-console-bridge`). -/

/-- One network entry of the aggregator store (`msg.data` of the
`network_*` messages): the fields the logger, the summary and the filters
read. -/
structure NetEvent where
  id : Option String
  type : String
  url : Option String
  method : Option String
  status : Option Nat
  errorText : Option String
  body : Option String
  deriving DecidableEq

/-- One error entry (`msg.data` of `console_error`, or an ingested server
error): the fields `generateSummary` reads. -/
structure ErrEvent where
  serverEvent : Bool
  rawType : Option String
  rawMessage : Option String
  rawStack : Option String
  cleaned : Option String
  ctxModel : Option String
  ctxAction : Option String
  ctxRoute : Option String
  deriving DecidableEq

/-- `capturedData`. -/
structure CapturedData where
  errors : List ErrEvent
  network : List NetEvent
  lastUpdate : Option String
  pageUrl : Option String
  deriving DecidableEq

def emptyCaptured : CapturedData :=
  { errors := [], network := [], lastUpdate := none, pageUrl := none }

/-- A parsed WebSocket message by its `type` discriminator; the payload
shape follows the producer of each type, and unknown types fall into
`other`. -/
inductive WsMsg where
  | consoleError (d : ErrEvent)
  | netRequest (d : NetEvent)
  | netResponse (d : NetEvent)
  | netFailure (d : NetEvent)
  | other
  deriving DecidableEq

/-- The `ws.on('message')` switch: `console_error` pushes to `errors` with
cap 100; `network_request` and `network_response` push to `network` with
cap 200; `network_failure` pushes to `network` with no cap check; anything
else is ignored.  (`logError` / `logNetwork` only print; `saveData` is
modelled where its effect is observed, at the HTTP layer.) -/
def handleWsMessage (st : CapturedData) (m : WsMsg) : CapturedData :=
  match m with
  | .consoleError d => { st with errors := pushCap 100 d st.errors }
  | .netRequest d => { st with network := pushCap 200 d st.network }
  | .netResponse d => { st with network := pushCap 200 d st.network }
  | .netFailure d => { st with network := st.network ++ [d] }
  | .other => st

/-- A whole inbound message sequence. -/
def processAll (msgs : List WsMsg) (st : CapturedData) : CapturedData :=
  msgs.foldl handleWsMessage st

/-- The failed-request filter of `generateSummary`:
`n.type === 'failure' || (n.type === 'response' && n.status >= 400)`
(an absent status is `undefined`, and `undefined >= 400` is false). -/
def failedOf (network : List NetEvent) : List NetEvent :=
  network.filter (fun n =>
    n.type == "failure" || (n.type == "response" && decide (400 ≤ n.status.getD 0)))

/-- `network.filter(n => n.type === 'request').slice(-10)`. -/
def recentRequestsOf (network : List NetEvent) : List NetEvent :=
  lastN 10 (network.filter (fun n => n.type == "request"))

/-- The request/response pairing of the Recent Requests section:
`network.find(n => n.type === 'response' && n.url === r.url)` — by URL. -/
def findResponseFor (network : List NetEvent) (r : NetEvent) : Option NetEvent :=
  network.find? (fun n => n.type == "response" && n.url == r.url)

/-- Modelled from the spec: the pairing the specification describes,
matching a request to its response by shared `correlationId` — stated here
only to compare with the source's `findResponseFor`. -/
def findResponseByCorrelation (network : List NetEvent) (r : NetEvent) :
    Option NetEvent :=
  network.find? (fun n => n.type == "response" && n.id == r.id)

/-- The data `generateSummary` renders, section by section: server errors
(of which the last 10 are printed), browser errors (last 15), the
failed/error requests (header counts all of them, the last 10 are
printed), and the last 10 requests each paired via `findResponseFor`.
The surrounding markdown is presentation only. -/
structure SummaryData where
  serverErrors : List ErrEvent
  browserErrors : List ErrEvent
  failed : List NetEvent
  recent : List (NetEvent × Option NetEvent)
  deriving DecidableEq

def generateSummary (st : CapturedData) : SummaryData :=
  { serverErrors := lastN 10 (st.errors.filter (fun e => e.serverEvent)),
    browserErrors := lastN 15 (st.errors.filter (fun e => !e.serverEvent)),
    failed := failedOf st.network,
    recent := (recentRequestsOf st.network).map
      (fun r => (r, findResponseFor st.network r)) }

/-- The two persisted locations (`DATA_FILE` under the home directory,
`PROJECT_DATA_FILE` under the working directory); content is the
serialised store. -/
structure DataFiles where
  home : Option CapturedData
  project : Option CapturedData
  deriving DecidableEq

/-- `saveData`: stamp `lastUpdate` with the current ISO time, serialise,
overwrite both files (write failures are swallowed by the source; the
model records the written state). -/
def saveData (st : CapturedData) (_fs : DataFiles) (now : String) :
    CapturedData × DataFiles :=
  let st1 := { st with lastUpdate := some now }
  (st1, { home := some st1, project := some st1 })

/-- The body of an HTTP request as the /ingest branch sees it: a parse
failure (including an empty body), or the parsed `type` and `data` fields
(`none` for an absent or falsy `data`). -/
inductive IngestBody where
  | invalid
  | parsed (type : Option String) (data : Option ErrEvent)
  deriving DecidableEq

structure HttpReq where
  method : String
  path : String
  body : IngestBody
  deriving DecidableEq

/-- The response payloads the handler can produce (the `res.end` content,
structurally). -/
inductive HttpResp where
  | preflight
  | dataJson (st : CapturedData)
  | errorsJson (l : List ErrEvent)
  | networkJson (l : List NetEvent)
  | summaryMd (s : SummaryData)
  | clearedOk
  | ingestOk
  | invalidJson
  | notFound
  deriving DecidableEq

/-- The aggregator's HTTP request handler: CORS preflight, the POST
/ingest branch (ingest only a parsed `server_error` with truthy data, cap
100, persist; always answer success for valid JSON; 400 otherwise), then
the path switch; `/clear` replaces the store with the empty object and
persists it. -/
def handleHttp (req : HttpReq) (st : CapturedData) (fs : DataFiles)
    (now : String) : CapturedData × DataFiles × HttpResp :=
  if req.method = "OPTIONS" then (st, fs, .preflight)
  else if req.path = "/ingest" ∧ req.method = "POST" then
    match req.body with
    | .invalid => (st, fs, .invalidJson)
    | .parsed ty d =>
      match d with
      | some dd =>
        if ty = some "server_error" then
          let st1 := { st with errors := pushCap 100 dd st.errors }
          let pair := saveData st1 fs now
          (pair.1, pair.2, .ingestOk)
        else (st, fs, .ingestOk)
      | none => (st, fs, .ingestOk)
  else if req.path = "/" ∨ req.path = "/data" then (st, fs, .dataJson st)
  else if req.path = "/errors" then (st, fs, .errorsJson st.errors)
  else if req.path = "/network" then (st, fs, .networkJson st.network)
  else if req.path = "/summary" then (st, fs, .summaryMd (generateSummary st))
  else if req.path = "/clear" then
    let pair := saveData emptyCaptured fs now
    (pair.1, pair.2, .clearedOk)
  else (st, fs, .notFound)

end Bridge

namespace ContentScript

/-- A sample captured error payload used to instantiate the dedup
theorem. -/
def sampleErrorData : ErrorData :=
  { type := some "error", message := some "TypeError: x.map is not a function",
    stack := none, componentStack := none, source := none,
    lineno := none, colno := none }

end ContentScript

namespace Bridge

/-- A message of the request/response class (the two capped network
producers), selected by the flag. -/
def reqRespMsg (p : Bool × NetEvent) : WsMsg :=
  if p.1 then WsMsg.netRequest p.2 else WsMsg.netResponse p.2

/-- A sample `network_failure` payload (a refused connection). -/
def sampleFailure : NetEvent :=
  { id := some "9", type := "failure", url := none, method := none,
    status := none, errorText := some "net::ERR_CONNECTION_REFUSED", body := none }

/-- A request event with `correlationId` 1. -/
def c4request (u m : String) : NetEvent :=
  { id := some "1", type := "request", url := some u, method := some m,
    status := none, errorText := none, body := none }

/-- A status-500 response event with `correlationId` 1. -/
def c4response (u : String) : NetEvent :=
  { id := some "1", type := "response", url := some u, method := none,
    status := some 500, errorText := none, body := some "Internal Server Error" }

/-- The store value `/clear` installs and persists: the fresh empty object
with `lastUpdate` stamped by `saveData`. -/
def clearedState (now : String) : CapturedData :=
  { errors := [], network := [], lastUpdate := some now, pageUrl := none }

end Bridge

namespace JsRegex

/-! Properties of the matcher and replacement combinators. -/

theorem consumes_mono {m : Matcher} {k j : Nat} (h : Consumes m k) (hjk : j ≤ k) :
    Consumes m j := by
  intro s r hr
  have := h s r hr
  omega

theorem mlit_consumes (p : String) : Consumes (mlit p) p.data.length := by
  intro s r h
  unfold mlit at h
  split at h
  · next hp =>
    cases h
    have hle : p.data.length ≤ s.length :=
      (List.isPrefixOf_iff_prefix.mp hp).length_le
    rw [List.length_drop]
    omega
  · exact absurd h (by simp)

theorem mrun_consumes (cls : Char → Bool) (low : Nat) :
    Consumes (mrun cls low) low := by
  intro s r h
  unfold mrun at h
  split at h
  · next hn =>
    cases h
    have hle : (s.takeWhile cls).length ≤ s.length :=
      (List.takeWhile_sublist cls).length_le
    rw [List.length_drop]
    omega
  · exact absurd h (by simp)

theorem mseq_consumes {a b : Matcher} {ka kb : Nat}
    (ha : Consumes a ka) (hb : Consumes b kb) : Consumes (mseq a b) (ka + kb) := by
  intro s r h
  unfold mseq at h
  cases hmid : a s with
  | none => rw [hmid] at h; exact absurd h (by simp)
  | some t =>
    rw [hmid] at h
    have h2 := hb t r h
    have h1 := ha s t hmid
    omega

theorem consumes_goodFor {m : Matcher} {k : Nat} {repl : List Char}
    (h : Consumes m k) (hlt : repl.length < k) : GoodFor repl m := by
  intro s r hr
  have := h s r hr
  omega

theorem replaceAllFuel_length_le (m : Matcher) (repl : List Char)
    (hg : GoodFor repl m) :
    ∀ f s, (replaceAllFuel m repl f s).length ≤ s.length := by
  intro f
  induction f with
  | zero =>
    intro s
    cases s <;> simp [replaceAllFuel]
  | succ f ih =>
    intro s
    cases s with
    | nil => simp [replaceAllFuel]
    | cons c rest =>
      simp only [replaceAllFuel]
      cases hm : m (c :: rest) with
      | none => simpa using ih rest
      | some r =>
        have hgood := hg (c :: rest) r hm
        have hcons : (c :: rest).length = rest.length + 1 := rfl
        rw [hcons] at hgood
        have hr : r.length ≤ rest.length := by omega
        simp only [hr, if_pos]
        have hrec := ih r
        rw [List.length_append, hcons]
        omega

theorem replaceAllFuel_eq_or_lt (m : Matcher) (repl : List Char)
    (hg : GoodFor repl m) :
    ∀ f s, replaceAllFuel m repl f s = s ∨
      (replaceAllFuel m repl f s).length < s.length := by
  intro f
  induction f with
  | zero =>
    intro s
    cases s <;> simp [replaceAllFuel]
  | succ f ih =>
    intro s
    cases s with
    | nil => simp [replaceAllFuel]
    | cons c rest =>
      simp only [replaceAllFuel]
      cases hm : m (c :: rest) with
      | none =>
        rcases ih rest with heq | hlt
        · left; rw [heq]
        · right; simpa using Nat.succ_lt_succ hlt
      | some r =>
        have hgood := hg (c :: rest) r hm
        have hcons : (c :: rest).length = rest.length + 1 := rfl
        rw [hcons] at hgood
        have hr : r.length ≤ rest.length := by omega
        simp only [hr, if_pos]
        right
        have hrec := replaceAllFuel_length_le m repl hg f r
        rw [List.length_append, hcons]
        omega

theorem replaceAll_eq_or_lt (m : Matcher) (repl : List Char)
    (hg : GoodFor repl m) (s : List Char) :
    replaceAll m repl s = s ∨ (replaceAll m repl s).length < s.length :=
  replaceAllFuel_eq_or_lt m repl hg s.length s

theorem mlit_consumes0 (p : String) : Consumes (mlit p) 0 :=
  consumes_mono (mlit_consumes p) (Nat.zero_le _)

theorem mrun_consumes0 (cls : Char → Bool) (low : Nat) : Consumes (mrun cls low) 0 :=
  consumes_mono (mrun_consumes cls low) (Nat.zero_le _)

theorem mseq_consumes0 {a b : Matcher} (ha : Consumes a 0) (hb : Consumes b 0) :
    Consumes (mseq a b) 0 := by
  simpa using mseq_consumes ha hb

theorem mseq_mlit_consumes1 (p : String) (b : Matcher)
    (hp : 1 ≤ p.data.length) (hb : Consumes b 0) :
    Consumes (mseq (mlit p) b) 1 :=
  consumes_mono (mseq_consumes (mlit_consumes p) hb) (by omega)

theorem mseq_mrun_consumes1 (cls : Char → Bool) (low : Nat) (b : Matcher)
    (hlow : 1 ≤ low) (hb : Consumes b 0) :
    Consumes (mseq (mrun cls low) b) 1 :=
  consumes_mono (mseq_consumes (mrun_consumes cls low) hb) (by omega)

theorem shrinkOrEq_comp {f g : List Char → List Char}
    (hf : ShrinkOrEq f) (hg : ShrinkOrEq g) : ShrinkOrEq (fun s => g (f s)) := by
  intro s
  show g (f s) = s ∨ (g (f s)).length < s.length
  rcases hf s with heq | hlt
  · rw [heq]; exact hg s
  · rcases hg (f s) with heq2 | hlt2
    · right; rw [heq2]; exact hlt
    · right; omega

end JsRegex

namespace ContentScript
open JsRegex

theorem junk1_consumes : Consumes junk1 1 :=
  mseq_mlit_consumes1 _ _ (by decide)
    (mseq_consumes0 (mrun_consumes0 _ _)
      (mseq_consumes0 (mlit_consumes0 _)
        (mseq_consumes0 (mrun_consumes0 _ _) (mlit_consumes0 _))))

theorem junk2_consumes : Consumes junk2 1 :=
  mseq_mlit_consumes1 _ _ (by decide)
    (mseq_consumes0 (mrun_consumes0 _ _)
      (mseq_consumes0 (mlit_consumes0 _)
        (mseq_consumes0 (mrun_consumes0 _ _) (mlit_consumes0 _))))

theorem junk3_consumes : Consumes junk3 1 :=
  mseq_mlit_consumes1 _ _ (by decide)
    (mseq_consumes0 (mrun_consumes0 _ _)
      (mseq_consumes0 (mlit_consumes0 _)
        (mseq_consumes0 (mrun_consumes0 _ _)
          (mseq_consumes0 (mlit_consumes0 _)
            (mseq_consumes0 (mrun_consumes0 _ _) (mlit_consumes0 _))))))

theorem junk4_consumes : Consumes junk4 1 :=
  mseq_mlit_consumes1 _ _ (by decide)
    (mseq_consumes0 (mrun_consumes0 _ _) (mlit_consumes0 _))

theorem junk5rest_consumes0 : Consumes junk5rest 0 :=
  mseq_consumes0 (mlit_consumes0 _)
    (mseq_consumes0 (mrun_consumes0 _ _) (mlit_consumes0 _))

theorem junk5try_le (s : List Char) :
    ∀ j r, junk5try s j = some r → r.length ≤ s.length := by
  intro j
  induction j with
  | zero => intro r h; exact absurd h (by simp [junk5try])
  | succ j ih =>
    intro r h
    unfold junk5try at h
    cases hm : junk5rest (s.drop (j + 1)) with
    | some t =>
      rw [hm] at h
      cases h
      have h1 := junk5rest_consumes0 _ _ hm
      rw [List.length_drop] at h1
      omega
    | none =>
      rw [hm] at h
      exact ih r h

theorem junk5part_consumes0 : Consumes junk5part 0 := by
  intro s r h
  have := junk5try_le s _ r h
  omega

theorem junk5_consumes : Consumes junk5 1 :=
  mseq_mlit_consumes1 _ _ (by decide) junk5part_consumes0

theorem junk6_consumes : Consumes junk6 1 :=
  mseq_mlit_consumes1 _ _ (by decide)
    (mseq_consumes0 (mrun_consumes0 _ _) (mlit_consumes0 _))

theorem junk7_consumes : Consumes junk7 1 :=
  mseq_mlit_consumes1 _ _ (by decide)
    (mseq_consumes0 (mrun_consumes0 _ _)
      (mseq_consumes0 (mlit_consumes0 _) (mrun_consumes0 _ _)))

theorem junk8_consumes : Consumes junk8 1 :=
  mseq_mlit_consumes1 _ _ (by decide)
    (mseq_consumes0 (mrun_consumes0 _ _) (mlit_consumes0 _))

theorem junk9_consumes : Consumes junk9 1 :=
  mseq_mrun_consumes1 _ _ _ (by omega) (mlit_consumes0 _)

theorem junk10_consumes : Consumes junk10 1 :=
  mseq_mlit_consumes1 _ _ (by decide)
    (mseq_consumes0 (mrun_consumes0 _ _) (mlit_consumes0 _))

theorem junk11_consumes : Consumes junk11 1 :=
  consumes_mono (mlit_consumes _) (by decide)

theorem junk12_consumes : Consumes junk12 1 :=
  consumes_mono (mrun_consumes _ 2) (by omega)

theorem junk13_consumes : Consumes junk13 1 :=
  mseq_mlit_consumes1 _ _ (by decide)
    (mseq_consumes0 (mrun_consumes0 _ _) (mlit_consumes0 _))

theorem junk14_consumes : Consumes junk14 1 :=
  consumes_mono (mlit_consumes _) (by decide)

theorem junk_goodFor : ∀ m ∈ JUNK_PATTERNS, GoodFor ([] : List Char) m := by
  intro m hm
  have hone : (0 : Nat) < 1 := by omega
  simp only [JUNK_PATTERNS, List.mem_cons, List.not_mem_nil, or_false] at hm
  rcases hm with rfl | rfl | rfl | rfl | rfl | rfl | rfl | rfl | rfl | rfl | rfl | rfl | rfl | rfl
  · exact consumes_goodFor junk1_consumes hone
  · exact consumes_goodFor junk2_consumes hone
  · exact consumes_goodFor junk3_consumes hone
  · exact consumes_goodFor junk4_consumes hone
  · exact consumes_goodFor junk5_consumes hone
  · exact consumes_goodFor junk6_consumes hone
  · exact consumes_goodFor junk7_consumes hone
  · exact consumes_goodFor junk8_consumes hone
  · exact consumes_goodFor junk9_consumes hone
  · exact consumes_goodFor junk10_consumes hone
  · exact consumes_goodFor junk11_consumes hone
  · exact consumes_goodFor junk12_consumes hone
  · exact consumes_goodFor junk13_consumes hone
  · exact consumes_goodFor junk14_consumes hone

theorem applyJunkPatterns_eq_or_lt : ShrinkOrEq applyJunkPatterns := by
  have hgen : ∀ (ms : List Matcher), (∀ m ∈ ms, GoodFor [] m) → ∀ s,
      ms.foldl (fun acc m => replaceAll m [] acc) s = s ∨
        (ms.foldl (fun acc m => replaceAll m [] acc) s).length < s.length := by
    intro ms
    induction ms with
    | nil => intro _ s; left; rfl
    | cons m rest ih =>
      intro hall s
      have h1 := replaceAll_eq_or_lt m [] (hall m (by simp)) s
      have h2 := ih (fun x hx => hall x (by simp [hx])) (replaceAll m [] s)
      simp only [List.foldl_cons]
      rcases h1 with heq1 | hlt1
      · rw [heq1] at h2 ⊢
        exact h2
      · rcases h2 with heq2 | hlt2
        · right; rw [heq2]; exact hlt1
        · right; omega
  intro s
  exact hgen JUNK_PATTERNS junk_goodFor s

theorem dropWhile_eq_or_lt (p : Char → Bool) (s : List Char) :
    s.dropWhile p = s ∨ (s.dropWhile p).length < s.length := by
  cases s with
  | nil => left; rfl
  | cons c rest =>
    by_cases h : p c
    · right
      rw [List.dropWhile_cons_of_pos h]
      have := (List.dropWhile_sublist (l := rest) p).length_le
      simp
      omega
    · left
      rw [List.dropWhile_cons_of_neg h]

theorem trimList_eq_or_lt : ShrinkOrEq trimList := by
  have hlead : ShrinkOrEq (fun s => s.dropWhile wsChar) := dropWhile_eq_or_lt wsChar
  have htrail : ShrinkOrEq dropTrailingWs := by
    intro s
    unfold dropTrailingWs
    rcases dropWhile_eq_or_lt wsChar s.reverse with heq | hlt
    · left; rw [heq, List.reverse_reverse]
    · right
      rw [List.length_reverse]
      rw [List.length_reverse] at hlt
      exact hlt
  intro s
  exact shrinkOrEq_comp hlead htrail s

theorem cleanErrorMessageL_eq_or_lt : ShrinkOrEq cleanErrorMessageL := by
  have g1 : GoodFor [' '] wsRun2 :=
    consumes_goodFor (mrun_consumes wsChar 2) (by decide)
  have g2 : GoodFor ['\n', '\n'] nlRun3 :=
    consumes_goodFor (mrun_consumes _ 3) (by decide)
  have g3 : GoodFor [] emptyParens :=
    consumes_goodFor
      (mseq_mlit_consumes1 _ _ (by decide)
        (mseq_consumes0 (mrun_consumes0 _ _) (mlit_consumes0 _))) (by decide)
  have g4 : GoodFor [] webpackInternalPath :=
    consumes_goodFor
      (mseq_mlit_consumes1 _ _ (by decide)
        (mseq_consumes0 (mrun_consumes0 _ _) (mlit_consumes0 _))) (by decide)
  have g5 : GoodFor ([] : List Char) (mlit ".next/server/") :=
    consumes_goodFor (mlit_consumes _) (by decide)
  have g6 : GoodFor ([] : List Char) (mlit ".next/static/chunks/") :=
    consumes_goodFor (mlit_consumes _) (by decide)
  have c1 := shrinkOrEq_comp applyJunkPatterns_eq_or_lt (replaceAll_eq_or_lt _ _ g1)
  have c2 := shrinkOrEq_comp c1 (replaceAll_eq_or_lt _ _ g2)
  have c3 := shrinkOrEq_comp c2 (replaceAll_eq_or_lt _ _ g3)
  have c4 := shrinkOrEq_comp c3 (replaceAll_eq_or_lt _ _ g4)
  have c5 := shrinkOrEq_comp c4 (replaceAll_eq_or_lt _ _ g5)
  have c6 := shrinkOrEq_comp c5 (replaceAll_eq_or_lt _ _ g6)
  have c7 := shrinkOrEq_comp c6 trimList_eq_or_lt
  intro s
  exact c7 s

theorem cleanErrorMessage_eq_or_lt (m : String) :
    cleanErrorMessage m = m ∨ (cleanErrorMessage m).length < m.length := by
  unfold cleanErrorMessage
  split
  · left; rfl
  · rcases cleanErrorMessageL_eq_or_lt m.data with heq | hlt
    · left
      show String.mk (cleanErrorMessageL m.data) = m
      rw [heq]
    · right
      show (cleanErrorMessageL m.data).length < m.data.length
      exact hlt

end ContentScript

namespace Background
open JsRegex

theorem timerInv_step (e : BridgeEv) {st : BridgeConnState} (h : TimerInv st) :
    TimerInv (bridgeStep e st) := by
  rcases h with ⟨hv, ht⟩ | ⟨hv, ht⟩ <;> cases e <;>
    unfold bridgeStep connectStep TimerInv <;> split_ifs <;> simp_all

theorem timerInv_reachable {st : BridgeConnState} (h : BridgeReachable st) :
    TimerInv st := by
  induction h with
  | init => right; exact ⟨rfl, rfl⟩
  | step e h ih => exact timerInv_step e ih

end Background

theorem pushCap_mem {α : Type} (cap : Nat) (hcap : 1 ≤ cap) (x : α) (l : List α) :
    x ∈ pushCap cap x l := by
  unfold pushCap
  split
  · next hlen =>
    cases l with
    | nil => simp at hlen; omega
    | cons a as => simp
  · simp

theorem pushCap_length_le {α : Type} (cap : Nat) (x : α) (l : List α)
    (hl : l.length ≤ cap) : (pushCap cap x l).length ≤ cap := by
  unfold pushCap
  split
  · next hlen =>
    simp at hlen ⊢
    omega
  · next hlen =>
    simp at hlen ⊢
    omega

theorem foldl_pushCap_eq_drop {α : Type} (cap : Nat) :
    ∀ (xs l : List α), l.length ≤ cap →
      xs.foldl (fun acc x => pushCap cap x acc) l =
        (l ++ xs).drop ((l ++ xs).length - cap) := by
  intro xs
  induction xs with
  | nil =>
    intro l hl
    simp only [List.foldl_nil, List.append_nil]
    rw [Nat.sub_eq_zero_of_le hl, List.drop_zero]
  | cons x rest ih =>
    intro l hl
    simp only [List.foldl_cons]
    have hx1 : (l ++ [x]).length = l.length + 1 := by simp
    by_cases hlen : (l ++ [x]).length ≤ cap
    · have hpush : pushCap cap x l = l ++ [x] := by
        unfold pushCap
        rw [if_neg (by omega)]
      rw [hpush, ih (l ++ [x]) hlen]
      simp [List.append_assoc]
    · have hlcap : l.length = cap := by omega
      have hpush : pushCap cap x l = (l ++ [x]).drop 1 := by
        unfold pushCap
        rw [if_pos (by omega)]
        exact (List.drop_one _).symm
      rw [hpush, ih ((l ++ [x]).drop 1) (by simp [List.length_drop]; omega)]
      have e1 : (l ++ [x]).drop 1 ++ rest = ((l ++ [x]) ++ rest).drop 1 :=
        (List.drop_append_of_le_length (by simp)).symm
      rw [e1, List.drop_drop]
      have e2 : (l ++ [x]) ++ rest = l ++ x :: rest := by simp
      rw [e2]
      congr 1
      simp [List.length_drop]
      omega

namespace Bridge

theorem processAll_consoleErrors (ds : List ErrEvent) :
    ∀ st : CapturedData, processAll (ds.map WsMsg.consoleError) st =
      { st with errors := ds.foldl (fun acc d => pushCap 100 d acc) st.errors } := by
  induction ds with
  | nil => intro st; rfl
  | cons d rest ih =>
    intro st
    show processAll (rest.map WsMsg.consoleError)
      (handleWsMessage st (WsMsg.consoleError d)) = _
    rw [ih]
    rfl

theorem processAll_reqResp (ps : List (Bool × NetEvent)) :
    ∀ st : CapturedData, processAll (ps.map reqRespMsg) st =
      { st with network :=
          (ps.map Prod.snd).foldl (fun acc d => pushCap 200 d acc) st.network } := by
  induction ps with
  | nil => intro st; rfl
  | cons p rest ih =>
    intro st
    obtain ⟨b, d⟩ := p
    show processAll (rest.map reqRespMsg)
      (handleWsMessage st (reqRespMsg (b, d))) = _
    rw [ih]
    cases b <;> rfl

theorem processAll_failures_length (d : NetEvent) :
    ∀ (n : Nat) (st : CapturedData),
      (processAll (List.replicate n (WsMsg.netFailure d)) st).network.length =
        st.network.length + n := by
  intro n
  induction n with
  | zero => intro st; rfl
  | succ n ih =>
    intro st
    show (processAll (List.replicate n (WsMsg.netFailure d))
      (handleWsMessage st (WsMsg.netFailure d))).network.length = _
    rw [ih]
    simp [handleWsMessage]
    omega

end Bridge

namespace ContentScript

theorem clean_iterate_fix : ∀ (n : Nat) (m : String), m.length ≤ n →
    ∃ k, k ≤ m.length ∧
      Nat.iterate cleanErrorMessage (k + 1) m = Nat.iterate cleanErrorMessage k m := by
  intro n
  induction n with
  | zero =>
    intro m hm
    have hempty : m = "" := by
      cases m with
      | mk data =>
        cases data with
        | nil => rfl
        | cons c cs => simp [String.length] at hm
    refine ⟨0, Nat.zero_le _, ?_⟩
    subst hempty
    rfl
  | succ n ih =>
    intro m hm
    rcases cleanErrorMessage_eq_or_lt m with heq | hlt
    · exact ⟨0, Nat.zero_le _, heq⟩
    · obtain ⟨k, hk, hit⟩ := ih (cleanErrorMessage m) (by omega)
      refine ⟨k + 1, by omega, ?_⟩
      show Nat.iterate cleanErrorMessage (k + 1) (cleanErrorMessage m) =
        Nat.iterate cleanErrorMessage k (cleanErrorMessage m)
      exact hit

end ContentScript

namespace Background

theorem lookup_default_iff (ty : String) :
    lookupResourceType defaultExcludedResourceTypes ty = true ↔
      (ty = "Font" ∨ ty = "Image" ∨ ty = "Media") := by
  unfold lookupResourceType defaultExcludedResourceTypes
  split_ifs <;> simp_all

theorem shouldExclude_default_spec (ty url : String) :
    shouldExcludeRequest defaultExcludedResourceTypes defaultExcludedPatterns ty url =
      (lookupResourceType defaultExcludedResourceTypes ty || specUrlHeuristics url) := by
  by_cases hl : lookupResourceType defaultExcludedResourceTypes ty = true
  · simp [shouldExcludeRequest, hl]
  · have hl2 : lookupResourceType defaultExcludedResourceTypes ty = false := by
      simp at hl; exact hl
    by_cases hu : url = ""
    · have hspec : specUrlHeuristics "" = false := by decide
      subst hu
      simp [shouldExcludeRequest, hl2, hspec]
    · cases hb : ("data:".data.isPrefixOf url.data ||
          ContentScript.containsSub "base64".data url.data) <;>
      cases hf : extHit fontExts (ContentScript.lowerL url.data) <;>
      cases hi : extHit imageExts (ContentScript.lowerL url.data) <;>
      cases hm2 : extHit mapExts (ContentScript.lowerL url.data) <;>
        simp [shouldExcludeRequest, specUrlHeuristics, defaultExcludedPatterns,
          hl2, hu, hb, hf, hi, hm2]

end Background

namespace ContentScript

theorem addError_dupe_eq {B : List ErrRecord} {d : ErrorData} {now : Nat} {u : String}
    (h : isDupe B d now = true) : addError d now u B = B := by
  unfold addError
  rw [h]
  simp

theorem addError_fresh_eq {B : List ErrRecord} {d : ErrorData} {now : Nat} {u : String}
    (h : isDupe B d now = false) :
    addError d now u B = pushCap 100 (mkRecord d now u) B := by
  unfold addError
  rw [h]
  simp

theorem stringify_mapM_ok : ∀ (args : List JsArg),
    (∀ a ∈ args, ∃ s, stringifyArg a = Except.ok s) →
    ∃ l, args.mapM stringifyArg = Except.ok l := by
  intro args
  induction args with
  | nil => intro _; exact ⟨[], rfl⟩
  | cons a rest ih =>
    intro h
    obtain ⟨s, hs⟩ := h a (by simp)
    obtain ⟨l, hl⟩ := ih (fun x hx => h x (by simp [hx]))
    refine ⟨s :: l, ?_⟩
    rw [List.mapM_cons, hs, hl]
    rfl

theorem consoleErrorWrapper_ok (args : List JsArg) (curStack : String) (now : Nat)
    (pageUrl : String) (errors : List ErrRecord) (l : List String)
    (hl : args.mapM stringifyArg = Except.ok l) :
    ∃ out, consoleErrorWrapper args curStack now pageUrl errors = Except.ok out ∧
      out.originalArgs = args := by
  unfold consoleErrorWrapper
  rw [hl]
  exact ⟨_, rfl, rfl⟩

theorem consoleWarnWrapper_ok (args : List JsArg) (curStack : String) (now : Nat)
    (pageUrl : String) (errors : List ErrRecord) (l : List String)
    (hl : args.mapM stringifyArg = Except.ok l) :
    ∃ out, consoleWarnWrapper args curStack now pageUrl errors = Except.ok out ∧
      out.originalArgs = args := by
  unfold consoleWarnWrapper
  rw [hl]
  exact ⟨_, rfl, rfl⟩

end ContentScript

/-! The claims. -/

/-- C1 (counterexample): the claim that for every sequence of N > cap
insertions into one buffer class — including network failure events — the
buffer length never exceeds the cap fails on the aggregator: 201
consecutive `network_failure` messages leave 201 entries in the network
buffer, past its 200 cap, because the `network_failure` branch pushes
without the eviction check the other branches perform. -/
theorem C1_counterexample_failure_flood :
    200 < (Bridge.processAll (List.replicate 201 (Bridge.WsMsg.netFailure Bridge.sampleFailure))
      Bridge.emptyCaptured).network.length := by
  have h := Bridge.processAll_failures_length Bridge.sampleFailure 201 Bridge.emptyCaptured
  have h2 : Bridge.emptyCaptured.network.length = 0 := rfl
  omega

/-- C1 (amended): bounded FIFO growth holds for the capped classes — any
sequence of `console_error` insertions leaves exactly the most recent 100
entries in insertion order in the errors buffer, and any sequence of
`network_request` / `network_response` insertions leaves exactly the most
recent 200 in order in the network buffer — while `network_failure`
insertions are appended with no eviction, so that class grows without
bound. -/
theorem C1_amended_bounded_growth :
    (∀ ds : List Bridge.ErrEvent,
      (Bridge.processAll (ds.map Bridge.WsMsg.consoleError) Bridge.emptyCaptured).errors =
        ds.drop (ds.length - 100) ∧
      (Bridge.processAll (ds.map Bridge.WsMsg.consoleError) Bridge.emptyCaptured).errors.length ≤ 100) ∧
    (∀ ps : List (Bool × Bridge.NetEvent),
      (Bridge.processAll (ps.map Bridge.reqRespMsg) Bridge.emptyCaptured).network =
        (ps.map Prod.snd).drop (ps.length - 200) ∧
      (Bridge.processAll (ps.map Bridge.reqRespMsg) Bridge.emptyCaptured).network.length ≤ 200) ∧
    (∀ n : Nat,
      (Bridge.processAll (List.replicate n (Bridge.WsMsg.netFailure Bridge.sampleFailure))
        Bridge.emptyCaptured).network.length = n) := by
  refine ⟨?_, ?_, ?_⟩
  · intro ds
    rw [Bridge.processAll_consoleErrors ds Bridge.emptyCaptured]
    have h2 := foldl_pushCap_eq_drop 100 ds ([] : List Bridge.ErrEvent) (by simp)
    constructor
    · show ds.foldl (fun acc d => pushCap 100 d acc) [] = ds.drop (ds.length - 100)
      rw [h2]
      simp
    · show (ds.foldl (fun acc d => pushCap 100 d acc) ([] : List Bridge.ErrEvent)).length ≤ 100
      rw [h2, List.length_drop]
      simp only [List.nil_append]
      omega
  · intro ps
    rw [Bridge.processAll_reqResp ps Bridge.emptyCaptured]
    have h2 := foldl_pushCap_eq_drop 200 (ps.map Prod.snd) ([] : List Bridge.NetEvent) (by simp)
    constructor
    · show (ps.map Prod.snd).foldl (fun acc d => pushCap 200 d acc) [] =
        (ps.map Prod.snd).drop (ps.length - 200)
      rw [h2]
      simp
    · show ((ps.map Prod.snd).foldl (fun acc d => pushCap 200 d acc)
        ([] : List Bridge.NetEvent)).length ≤ 200
      rw [h2, List.length_drop]
      simp only [List.nil_append]
      omega
  · intro n
    have h := Bridge.processAll_failures_length Bridge.sampleFailure n Bridge.emptyCaptured
    have h2 : Bridge.emptyCaptured.network.length = 0 := rfl
    omega

/-- C2 (counterexample): the cleaning rule set is not idempotent — on
"a () b" one application removes the empty parentheses and leaves the two
surrounding spaces adjacent ("a  b"), and only a second application
collapses them ("a b"). -/
theorem C2_counterexample_not_idempotent :
    ContentScript.cleanErrorMessage (ContentScript.cleanErrorMessage "a () b") ≠
      ContentScript.cleanErrorMessage "a () b" := by decide

/-- C2 (amended): a single application of the full cleaning rule set need
not be idempotent (a removal can expose a new match for an earlier rule),
but every application either returns its input unchanged or strictly
shortens it, so iterating `cleanErrorMessage` reaches a fixed point within
at most `m.length` applications. -/
theorem C2_amended_cleaning_converges (m : String) :
    (ContentScript.cleanErrorMessage m = m ∨
      (ContentScript.cleanErrorMessage m).length < m.length) ∧
    ∃ k, k ≤ m.length ∧
      Nat.iterate ContentScript.cleanErrorMessage (k + 1) m =
        Nat.iterate ContentScript.cleanErrorMessage k m :=
  ⟨ContentScript.cleanErrorMessage_eq_or_lt m,
   ContentScript.clean_iterate_fix m.length m (Nat.le_refl _)⟩

/-- C3 (confirmed): if an event is buffered (not itself a duplicate) and a
second event arrives whose raw message shares the first-100-character key
and whose capture time lies within the following second, then `addError`
discards the second event, leaving the buffer exactly as it was, while the
first event's record remains buffered. -/
theorem C3_dedup_discards_second (B : List ContentScript.ErrRecord)
    (d1 d2 : ContentScript.ErrorData) (t1 t2 : Nat) (u1 u2 : String)
    (hfresh : ContentScript.isDupe B d1 t1 = false)
    (hpre : ContentScript.msgKey d1.message = ContentScript.msgKey d2.message)
    (hwin : (t2 : Int) - (t1 : Int) < 1000) :
    ContentScript.addError d2 t2 u2 (ContentScript.addError d1 t1 u1 B) =
      ContentScript.addError d1 t1 u1 B ∧
    ContentScript.mkRecord d1 t1 u1 ∈ ContentScript.addError d1 t1 u1 B := by
  have hmem : ContentScript.mkRecord d1 t1 u1 ∈ ContentScript.addError d1 t1 u1 B := by
    rw [ContentScript.addError_fresh_eq hfresh]
    exact pushCap_mem 100 (by omega) _ _
  have hdupe : ContentScript.isDupe (ContentScript.addError d1 t1 u1 B) d2 t2 = true := by
    unfold ContentScript.isDupe
    rw [List.any_eq_true]
    refine ⟨ContentScript.mkRecord d1 t1 u1, hmem, ?_⟩
    have hraw : (ContentScript.mkRecord d1 t1 u1).raw = d1 := rfl
    have hts : (ContentScript.mkRecord d1 t1 u1).timestamp = t1 := rfl
    rw [hraw, hts, hpre]
    simp [hwin]
  exact ⟨ContentScript.addError_dupe_eq hdupe, hmem⟩

/-- C3 (witness): two identical errors 500 ms apart — the second is
discarded, the first stays buffered. -/
theorem C3_dedup_discards_second_witness :
    ContentScript.addError ContentScript.sampleErrorData 500 "u"
        (ContentScript.addError ContentScript.sampleErrorData 0 "u" []) =
      ContentScript.addError ContentScript.sampleErrorData 0 "u" [] ∧
    ContentScript.mkRecord ContentScript.sampleErrorData 0 "u" ∈
      ContentScript.addError ContentScript.sampleErrorData 0 "u" [] :=
  C3_dedup_discards_second [] ContentScript.sampleErrorData ContentScript.sampleErrorData
    0 500 "u" "u" (by decide) rfl (by decide)

/-- C4 (counterexample): summary-time matching is not by correlationId:
for a request and a response that share correlationId "1" but differ in
URL, the source's `findResponseFor` finds nothing, although matching by
correlationId (as the claim states) would find the response. -/
theorem C4_counterexample_url_not_correlation :
    Bridge.findResponseFor
        [Bridge.c4request "http://a/x" "GET", Bridge.c4response "http://a/y"]
        (Bridge.c4request "http://a/x" "GET") = none ∧
    Bridge.findResponseByCorrelation
        [Bridge.c4request "http://a/x" "GET", Bridge.c4response "http://a/y"]
        (Bridge.c4request "http://a/x" "GET") =
      some (Bridge.c4response "http://a/y") := by decide

/-- C4 (amended): request and response events sharing a correlationId are
stored as two independent buffer entries (never merged), and at summary
time a request is matched to a response by URL equality rather than by
correlationId; scenario B holds: a `network_request` followed by a
`network_response` with status 500 on the same URL yields exactly one
error-response summary entry carrying that URL and status, and the
request is paired with that response. -/
theorem C4_amended_storage_and_scenario :
    (∀ d1 d2 : Bridge.NetEvent,
      (Bridge.processAll [Bridge.WsMsg.netRequest d1, Bridge.WsMsg.netResponse d2]
        Bridge.emptyCaptured).network = [d1, d2]) ∧
    (∀ u m : String,
      (Bridge.processAll [Bridge.WsMsg.netRequest (Bridge.c4request u m),
          Bridge.WsMsg.netResponse (Bridge.c4response u)] Bridge.emptyCaptured).network =
        [Bridge.c4request u m, Bridge.c4response u] ∧
      Bridge.failedOf [Bridge.c4request u m, Bridge.c4response u] = [Bridge.c4response u] ∧
      (Bridge.generateSummary (Bridge.processAll [Bridge.WsMsg.netRequest (Bridge.c4request u m),
          Bridge.WsMsg.netResponse (Bridge.c4response u)] Bridge.emptyCaptured)).failed =
        [Bridge.c4response u] ∧
      (Bridge.c4response u).status = some 500 ∧ (Bridge.c4response u).url = some u ∧
      Bridge.findResponseFor [Bridge.c4request u m, Bridge.c4response u]
        (Bridge.c4request u m) = some (Bridge.c4response u)) := by
  constructor
  · intro d1 d2
    show (Bridge.handleWsMessage (Bridge.handleWsMessage Bridge.emptyCaptured
      (Bridge.WsMsg.netRequest d1)) (Bridge.WsMsg.netResponse d2)).network = [d1, d2]
    simp [Bridge.handleWsMessage, Bridge.emptyCaptured, pushCap]
  · intro u m
    have hnet : (Bridge.processAll [Bridge.WsMsg.netRequest (Bridge.c4request u m),
        Bridge.WsMsg.netResponse (Bridge.c4response u)] Bridge.emptyCaptured).network =
        [Bridge.c4request u m, Bridge.c4response u] := by
      show (Bridge.handleWsMessage (Bridge.handleWsMessage Bridge.emptyCaptured
        (Bridge.WsMsg.netRequest (Bridge.c4request u m)))
        (Bridge.WsMsg.netResponse (Bridge.c4response u))).network = _
      simp [Bridge.handleWsMessage, Bridge.emptyCaptured, pushCap]
    have hfail : Bridge.failedOf [Bridge.c4request u m, Bridge.c4response u] =
        [Bridge.c4response u] := by
      simp [Bridge.failedOf, Bridge.c4request, Bridge.c4response]
    refine ⟨hnet, hfail, ?_, rfl, rfl, ?_⟩
    · show Bridge.failedOf (Bridge.processAll [Bridge.WsMsg.netRequest (Bridge.c4request u m),
        Bridge.WsMsg.netResponse (Bridge.c4response u)] Bridge.emptyCaptured).network = _
      rw [hnet, hfail]
    · simp [Bridge.findResponseFor, Bridge.c4request, Bridge.c4response, List.find?]

/-- C5 (confirmed): in every reachable state of the reconnect machine at
most one reconnect timer is pending; a connection drop always leaves
exactly one pending 5000 ms timer (scheduling it only if none exists), and
a drop while one is pending schedules nothing new. -/
theorem C5_single_reconnect_timer {st : Background.BridgeConnState}
    (h : Background.BridgeReachable st) :
    st.timers.length ≤ 1 ∧
    (Background.bridgeStep Background.BridgeEv.dropped st).timers = [5000] ∧
    (st.timerVar = true →
      (Background.bridgeStep Background.BridgeEv.dropped st).timers = st.timers) := by
  rcases Background.timerInv_reachable h with ⟨hv, ht⟩ | ⟨hv, ht⟩
  · refine ⟨by rw [ht]; decide, ?_, ?_⟩
    · simp [Background.bridgeStep, hv, ht]
    · intro _
      simp [Background.bridgeStep, hv]
  · refine ⟨by rw [ht]; decide, ?_, ?_⟩
    · simp [Background.bridgeStep, hv, ht]
    · intro hcontra
      exact absurd hcontra (by simp [hv])

/-- C5 (witness): the state after one drop from startup is reachable, has
one pending timer, and a further drop leaves that single timer as is. -/
theorem C5_single_reconnect_timer_witness :
    (Background.bridgeStep Background.BridgeEv.dropped Background.initialBridgeState).timers.length ≤ 1 ∧
    (Background.bridgeStep Background.BridgeEv.dropped
      (Background.bridgeStep Background.BridgeEv.dropped Background.initialBridgeState)).timers = [5000] ∧
    ((Background.bridgeStep Background.BridgeEv.dropped Background.initialBridgeState).timerVar = true →
      (Background.bridgeStep Background.BridgeEv.dropped
        (Background.bridgeStep Background.BridgeEv.dropped Background.initialBridgeState)).timers =
      (Background.bridgeStep Background.BridgeEv.dropped Background.initialBridgeState).timers) :=
  C5_single_reconnect_timer
    (Background.BridgeReachable.step Background.BridgeEv.dropped Background.BridgeReachable.init)

/-- C6 (confirmed): GET /clear replaces the store by the empty state,
persists exactly that state to both file locations, and answers with the
cleared confirmation; a following GET /data on the resulting store and
files returns the store (both buffers empty) unchanged, and the files
still hold the cleared state. -/
theorem C6_clear_resets_and_persists (st : Bridge.CapturedData) (fs : Bridge.DataFiles)
    (now now2 : String) (body body2 : Bridge.IngestBody) :
    Bridge.handleHttp { method := "GET", path := "/clear", body := body } st fs now =
      (Bridge.clearedState now,
       { home := some (Bridge.clearedState now), project := some (Bridge.clearedState now) },
       Bridge.HttpResp.clearedOk) ∧
    (Bridge.clearedState now).errors = [] ∧ (Bridge.clearedState now).network = [] ∧
    Bridge.handleHttp { method := "GET", path := "/data", body := body2 }
        (Bridge.clearedState now)
        { home := some (Bridge.clearedState now), project := some (Bridge.clearedState now) } now2 =
      (Bridge.clearedState now,
       { home := some (Bridge.clearedState now), project := some (Bridge.clearedState now) },
       Bridge.HttpResp.dataJson (Bridge.clearedState now)) :=
  ⟨rfl, rfl, rfl, rfl⟩

/-- C7 (counterexample): an argument whose `String()` conversion throws
makes the whole `console.error` wrapper throw before the saved original
`console.error` is invoked — the capture path does not swallow this
failure and the original printing is skipped. -/
theorem C7_counterexample_thrown_stringify :
    ContentScript.consoleErrorWrapper
        [ContentScript.JsArg.objVal none (Except.error ())] "stack" 0 "url" [] =
      Except.error () := rfl

/-- C7 (amended): for every argument list whose per-argument
stringification does not throw, the wrapped console.error and console.warn
capture paths complete and the saved original function is invoked with the
original, unmodified arguments; the unconditional claim fails only through
an argument whose own String() conversion throws inside `stringifyArg`'s
catch fallback (see the counterexample). -/
theorem C7_amended_capture_safety (args : List ContentScript.JsArg)
    (curStack : String) (now : Nat) (pageUrl : String)
    (errors : List ContentScript.ErrRecord)
    (h : ∀ a ∈ args, ∃ s, ContentScript.stringifyArg a = Except.ok s) :
    (∃ out, ContentScript.consoleErrorWrapper args curStack now pageUrl errors =
        Except.ok out ∧ out.originalArgs = args) ∧
    (∃ out2, ContentScript.consoleWarnWrapper args curStack now pageUrl errors =
        Except.ok out2 ∧ out2.originalArgs = args) := by
  obtain ⟨l, hl⟩ := ContentScript.stringify_mapM_ok args h
  exact ⟨ContentScript.consoleErrorWrapper_ok args curStack now pageUrl errors l hl,
    ContentScript.consoleWarnWrapper_ok args curStack now pageUrl errors l hl⟩

/-- C7 (witness): a single string argument stringifies cleanly, so both
wrappers capture it and hand the original arguments on. -/
theorem C7_amended_capture_safety_witness :
    (∃ out, ContentScript.consoleErrorWrapper [ContentScript.JsArg.strVal "request failed"]
        "s" 0 "u" [] = Except.ok out ∧
        out.originalArgs = [ContentScript.JsArg.strVal "request failed"]) ∧
    (∃ out2, ContentScript.consoleWarnWrapper [ContentScript.JsArg.strVal "request failed"]
        "s" 0 "u" [] = Except.ok out2 ∧
        out2.originalArgs = [ContentScript.JsArg.strVal "request failed"]) :=
  C7_amended_capture_safety [ContentScript.JsArg.strVal "request failed"] "s" 0 "u" []
    (by
      intro a ha
      simp at ha
      subst ha
      exact ⟨"request failed", rfl⟩)

/-- C8 (confirmed): under the default settings the exclusion filter fires
exactly for the declared categories Font, Image and Media (Stylesheet and
Script are not excluded by category) or for a URL hitting the
data:/base64, font-extension, image-extension or source-map heuristics;
an excluded request is neither stored nor forwarded, and a non-excluded
request is stored as pending, appended to the capped tab buffer, and
forwarded to the bridge. -/
theorem C8_exclusion_filter (ty url requestId method : String) (tabId now : Nat)
    (st : Background.TabNetState) :
    (Background.shouldExcludeRequest Background.defaultExcludedResourceTypes
        Background.defaultExcludedPatterns ty url = true ↔
      ((ty = "Font" ∨ ty = "Image" ∨ ty = "Media") ∨
        Background.specUrlHeuristics url = true)) ∧
    (Background.shouldExcludeRequest Background.defaultExcludedResourceTypes
        Background.defaultExcludedPatterns ty url = true →
      Background.onRequestWillBeSent Background.defaultExcludedResourceTypes
        Background.defaultExcludedPatterns tabId requestId ty url method now st = st) ∧
    (Background.shouldExcludeRequest Background.defaultExcludedResourceTypes
        Background.defaultExcludedPatterns ty url = false →
      Background.onRequestWillBeSent Background.defaultExcludedResourceTypes
        Background.defaultExcludedPatterns tabId requestId ty url method now st =
        { requests := pushCap 100 (Background.mkRequestRecord requestId ty url method now) st.requests, pending := st.pending ++ [(requestId, Background.mkRequestRecord requestId ty url method now)], sent := st.sent ++ [{ type := "network_request", tabId := tabId, data := Background.mkRequestRecord requestId ty url method now }] }) := by
  refine ⟨?_, ?_, ?_⟩
  · rw [Background.shouldExclude_default_spec, Bool.or_eq_true,
      Background.lookup_default_iff]
  · intro hex
    unfold Background.onRequestWillBeSent
    rw [hex]
    simp
  · intro hex
    unfold Background.onRequestWillBeSent
    rw [hex]
    simp

/-- C8 (witness): a Font-category request is excluded and its handling
leaves the interceptor state untouched. -/
theorem C8_exclusion_filter_witness :
    Background.onRequestWillBeSent Background.defaultExcludedResourceTypes
      Background.defaultExcludedPatterns 7 "r1" "Font" "http://x/font.bin" "GET" 0
      { requests := [], pending := [], sent := [] } =
      { requests := [], pending := [], sent := [] } :=
  (C8_exclusion_filter "Font" "http://x/font.bin" "r1" "GET" 7 0
    { requests := [], pending := [], sent := [] }).2.1 (by decide)

/-- C9 (confirmed): the four read-only query paths (GET /data, /errors,
/network, /summary) leave the in-memory store and the persisted files
exactly as they were. -/
theorem C9_queries_read_only (p : String) (st : Bridge.CapturedData)
    (fs : Bridge.DataFiles) (now : String) (body : Bridge.IngestBody)
    (hp : p = "/data" ∨ p = "/errors" ∨ p = "/network" ∨ p = "/summary") :
    (Bridge.handleHttp { method := "GET", path := p, body := body } st fs now).1 = st ∧
    (Bridge.handleHttp { method := "GET", path := p, body := body } st fs now).2.1 = fs := by
  rcases hp with rfl | rfl | rfl | rfl <;> exact ⟨rfl, rfl⟩

/-- C9 (witness): GET /errors on the empty store changes nothing. -/
theorem C9_queries_read_only_witness :
    (Bridge.handleHttp { method := "GET", path := "/errors", body := Bridge.IngestBody.invalid }
        Bridge.emptyCaptured { home := none, project := none } "t").1 = Bridge.emptyCaptured ∧
    (Bridge.handleHttp { method := "GET", path := "/errors", body := Bridge.IngestBody.invalid }
        Bridge.emptyCaptured { home := none, project := none } "t").2.1 =
      { home := none, project := none } :=
  C9_queries_read_only "/errors" Bridge.emptyCaptured { home := none, project := none } "t"
    Bridge.IngestBody.invalid (Or.inr (Or.inl rfl))

/-- C10 (confirmed): a POST /ingest whose body parses as JSON but whose
type is not server_error — or whose data field is absent or falsy — is
answered with the 200 success payload while the store and the persisted
files stay untouched; only a body that fails JSON parsing receives the 400
Invalid JSON response. -/
theorem C10_ingest_gating (ty : Option String) (d : Option Bridge.ErrEvent)
    (st : Bridge.CapturedData) (fs : Bridge.DataFiles) (now : String)
    (h : ty ≠ some "server_error" ∨ d = none) :
    Bridge.handleHttp { method := "POST", path := "/ingest", body := Bridge.IngestBody.parsed ty d } st fs now =
      (st, fs, Bridge.HttpResp.ingestOk) ∧
    Bridge.handleHttp { method := "POST", path := "/ingest", body := Bridge.IngestBody.invalid } st fs now =
      (st, fs, Bridge.HttpResp.invalidJson) := by
  constructor
  · cases d with
    | none => rfl
    | some dd =>
      rcases h with hne | hnone
      · unfold Bridge.handleHttp
        simp [hne]
      · exact absurd hnone (by simp)
  · rfl

/-- C10 (witness): a parsed body of another type with no data is a no-op
success; an unparsable body is a 400. -/
theorem C10_ingest_gating_witness :
    Bridge.handleHttp { method := "POST", path := "/ingest", body := Bridge.IngestBody.parsed (some "client_error") none }
      Bridge.emptyCaptured { home := none, project := none } "t" =
      (Bridge.emptyCaptured, { home := none, project := none }, Bridge.HttpResp.ingestOk) ∧
    Bridge.handleHttp { method := "POST", path := "/ingest", body := Bridge.IngestBody.invalid }
      Bridge.emptyCaptured { home := none, project := none } "t" =
      (Bridge.emptyCaptured, { home := none, project := none }, Bridge.HttpResp.invalidJson) :=
  C10_ingest_gating (some "client_error") none Bridge.emptyCaptured
    { home := none, project := none } "t" (Or.inr rfl)
